import Mathlib

/-!
# Verification of the snake grid-simulation core

A shallow embedding, in Lean 4, of the grid-simulation core of
`src/pysmallgames/snake/snake.py`: the body of the snake (a deque of grid
cells), its movement / growth / collision rules, the food-placement
candidate set, and the score-to-speed step function.  Deques are
modelled as Lean lists (head of the deque = head of the list;
`appendleft` = cons, `pop` = `dropLast`); Python `IndexError` on deque
indexing is modelled by returning `Option.none`; the process-wide
random choice in `random.choice(foods)` is modelled by reasoning over
every member of the candidate list `foods`.
-/

namespace SnakeGame

/-- A grid cell `(x, y)` (Python `Tuple[int, int]`). -/
abbrev Cell := Int × Int

/-- The four headings of the `MOTIONS` table. -/
inductive Direction
  | up
  | down
  | left
  | right
  deriving DecidableEq, Repr

/-- Table `MOTIONS`: the unit delta vector of each direction
(`right=(1,0), left=(-1,0), up=(0,-1), down=(0,1)`). -/
def MOTIONS : Direction → Int × Int
  | .right => (1, 0)
  | .left => (-1, 0)
  | .up => (0, -1)
  | .down => (0, 1)

/-- Constant `GEOMETRY[nx]`: grid width in cells. -/
def nx : Int := 20

/-- Constant `GEOMETRY[ny]`: grid height in cells. -/
def ny : Int := 20

/-- The bounds test of `Snake.move`: `0 <= x < nx and 0 <= y < ny`. -/
def inBounds (c : Cell) : Bool :=
  0 ≤ c.1 && c.1 < nx && 0 ≤ c.2 && c.2 < ny

/-- The `Snake` class: `grids` is the deque of occupied cells (head
first), `direction` the current heading, `speed` the tick rate. -/
structure Snake where
  grids : List Cell
  direction : Direction
  speed : Nat
  deriving DecidableEq, Repr

namespace Snake

/-- Method `Snake.target`: `grids[0] + MOTIONS[direction]`.  Indexing an
empty deque raises `IndexError`, modelled as `none`. -/
def target (s : Snake) : Option Cell :=
  s.grids.head?.map fun h =>
    (h.1 + (MOTIONS s.direction).1, h.2 + (MOTIONS s.direction).2)

/-- Method `Snake.move`: compute `target`; if it is in bounds, `appendleft`
it and `pop` the tail; otherwise `appendleft` a duplicate of the
current head `grids[0]`. -/
def move (s : Snake) : Option Snake :=
  match s.grids with
  | [] => none
  | h :: rest =>
    let m := MOTIONS s.direction
    let t : Cell := (h.1 + m.1, h.2 + m.2)
    some <|
      if inBounds t then
        { s with grids := t :: (h :: rest).dropLast }
      else
        { s with grids := h :: h :: rest }

/-- Method `Snake.eat`: `appendleft` the target cell (no pop). -/
def eat (s : Snake) : Option Snake :=
  s.target.map fun t => { s with grids := t :: s.grids }

/-- Method `Snake.set_direction`: compute the neck-to-head vector
`grids[0] - grids[1]` and accept the candidate direction iff adding
its motion vector leaves some axis nonzero (Python `any(...)` over the
two components).  `grids[1]` on a deque of length < 2 raises
`IndexError`, modelled as `none`. -/
def set_direction (s : Snake) (d : Direction) : Option Snake :=
  match s.grids with
  | g0 :: g1 :: _ =>
    let neck : Int × Int := (g0.1 - g1.1, g0.2 - g1.2)
    let m := MOTIONS d
    some <|
      if neck.1 + m.1 ≠ 0 ∨ neck.2 + m.2 ≠ 0 then
        { s with direction := d }
      else s
  | _ => none

/-- Property `Snake.alive`: `len(set(self.grids)) == len(self.grids)` — the
deduplicated body has the same number of cells as the body. -/
def alive (s : Snake) : Bool :=
  s.grids.dedup.length == s.grids.length

end Snake

/-- The exact opposite of a heading (spec vocabulary: "the exact
negation of the current heading"). -/
def Direction.opposite : Direction → Direction
  | .up => .down
  | .down => .up
  | .left => .right
  | .right => .left

/-- All cells of the `nx × ny` grid, as enumerated by
`for x in range(nx) for y in range(ny)`. -/
def gridCells : List Cell :=
  (List.range 20).flatMap fun x =>
    (List.range 20).map fun (y : Nat) => ((x : Int), (y : Int))

/-- The local list `foods` of `Game.generate_food`: grid cells
`(x, y)` with `(x, y) not in self.snake.grids` and
`any([x not in (0, nx - 1), y not in (0, ny - 1)])`. -/
def foods (grids : List Cell) : List Cell :=
  gridCells.filter fun c =>
    decide (c ∉ grids) &&
      (!(c.1 == 0 || c.1 == nx - 1) || !(c.2 == 0 || c.2 == ny - 1))

/-- Constant `SCORES`: the ascending score thresholds. -/
def SCORES : List Nat := [150, 300, 500, 750, 1100, 1500, 2000, 2500]

/-- Field `SNAKE_PROPS.speed`: the base speed. -/
def SNAKE_PROPS_speed : Nat := 4

/-- One iteration budget of the `while lo < hi` loop of the Python function
`bisect.bisect` (`bisect_right`); the loop shrinks `hi - lo` each
pass, so `a.length` passes always suffice. -/
def bisectLoop (a : List Nat) (x : Nat) : Nat → Nat → Nat → Nat
  | 0, lo, _ => lo
  | fuel + 1, lo, hi =>
    if lo < hi then
      let mid := (lo + hi) / 2
      if x < a.getD mid 0 then bisectLoop a x fuel lo mid
      else bisectLoop a x fuel (mid + 1) hi
    else lo

/-- Function `bisect.bisect(a, x)`: the rightmost insertion point of `x` in the
sorted list `a`. -/
def bisect (a : List Nat) (x : Nat) : Nat :=
  bisectLoop a x a.length 0 a.length

/-- The speed update in `Game.run`:
`bisect.bisect(SCORES, score) + SNAKE_PROPS.speed`. -/
def newSpeed (score : Nat) : Nat :=
  bisect SCORES score + SNAKE_PROPS_speed

/-- The count the spec describes: "speed level = (count of breakpoints
≤ current score) + base speed". -/
def countThresholdsLe (score : Nat) : Nat :=
  (SCORES.filter fun t => t ≤ score).length

/-- The `Game` session state the claims mention: the snake, the food
cell and the score. -/
structure Game where
  snake : Snake
  food : Cell
  score : Nat
  deriving DecidableEq, Repr

/-- The direction-key branch of `Game.check_keydown_events`:
`self.snake.set_direction(DIRECTIONS[event.key])`, applied
unconditionally (no alive test on this branch). -/
def handle_direction_input (g : Game) (d : Direction) : Option Game :=
  (g.snake.set_direction d).map fun s => { g with snake := s }

/-! ## Helper lemmas -/

/-- Comparing set cardinality with list length detects duplicates:
`alive` holds exactly when the body has no repeated cell. -/
lemma alive_iff_nodup (s : Snake) : s.alive = true ↔ s.grids.Nodup := by
  unfold Snake.alive
  rw [beq_iff_eq]
  constructor
  · intro h
    exact List.dedup_eq_self.1 ((s.grids.dedup_sublist).eq_of_length h)
  · intro h
    rw [List.dedup_eq_self.2 h]

/-! ## Claim theorems -/

/-- C2: for every snake body, `alive` is true iff all cells in the
body are pairwise distinct, and `alive` is false iff some cell value
appears at least twice in the body sequence (two distinct positions of
the body hold the same cell). -/
theorem C2_alive_iff_distinct (s : Snake) :
    (s.alive = true ↔ s.grids.Nodup) ∧
    (s.alive = false ↔ ∃ i j, ∃ hi : i < s.grids.length,
      ∃ hj : j < s.grids.length, i < j ∧ s.grids[i] = s.grids[j]) := by
  refine ⟨alive_iff_nodup s, ?_⟩
  rw [← Bool.not_eq_true, alive_iff_nodup s]
  unfold List.Nodup
  rw [List.pairwise_iff_getElem]
  push_neg
  constructor
  · rintro ⟨i, j, hi, hj, hij, hEq⟩
    exact ⟨i, j, hi, hj, hij, hEq⟩
  · rintro ⟨i, j, hi, hj, hij, hEq⟩
    exact ⟨i, j, hi, hj, hij, hEq⟩

/-- C1: for every (nonempty) snake body, `move` computes the target
cell as head plus the current motion vector; in bounds it pushes the
target and pops the tail (length unchanged, head is the target, every
other cell takes the place of its predecessor); out of bounds it
pushes a duplicate of the current head without popping (length grows
by one, the first two cells are equal, and `alive` is false after). -/
theorem C1_move_spec (s : Snake) (h0 : Cell) (rest : List Cell)
    (hg : s.grids = h0 :: rest) :
    ∃ t : Cell,
      s.target = some t ∧
      t = (h0.1 + (MOTIONS s.direction).1, h0.2 + (MOTIONS s.direction).2) ∧
      (inBounds t = true →
        s.move = some { s with grids := t :: (h0 :: rest).dropLast } ∧
        (t :: (h0 :: rest).dropLast).length = s.grids.length ∧
        (t :: (h0 :: rest).dropLast).head? = some t ∧
        (∀ i : Nat, i + 1 < s.grids.length →
          (t :: (h0 :: rest).dropLast)[i + 1]? = s.grids[i]?)) ∧
      (inBounds t = false →
        s.move = some { s with grids := h0 :: h0 :: rest } ∧
        (h0 :: h0 :: rest).length = s.grids.length + 1 ∧
        (h0 :: h0 :: rest)[0]? = (h0 :: h0 :: rest)[1]? ∧
        Snake.alive { s with grids := h0 :: h0 :: rest } = false) := by
  obtain ⟨g, d, sp⟩ := s
  simp only [Snake.mk.injEq] at hg ⊢
  subst hg
  refine ⟨(h0.1 + (MOTIONS d).1, h0.2 + (MOTIONS d).2), ?_, rfl, ?_, ?_⟩
  · simp [Snake.target]
  · intro hin
    refine ⟨?_, ?_, rfl, ?_⟩
    · simp [Snake.move, hin]
    · simp only [List.length_cons, List.length_dropLast]
      omega
    · intro i hi
      rw [List.getElem?_cons_succ, List.dropLast_eq_take, List.getElem?_take]
      simp only [List.length_cons] at hi ⊢
      rw [if_pos (by omega)]
  · intro hout
    refine ⟨?_, by simp, by simp, ?_⟩
    · simp [Snake.move, hout]
    · rw [← Bool.not_eq_true, alive_iff_nodup]
      simp only [List.nodup_cons, List.mem_cons]
      tauto

/-- C1 witness: the in-bounds branch at the doctest snake (head
`(8,5)`, heading right) and the out-of-bounds branch at a snake whose
head `(19,5)` faces the right wall. -/
theorem C1_move_witness :
    Snake.move ⟨[(8, 5), (7, 5), (6, 5)], .right, 4⟩ =
      some ⟨[(9, 5), (8, 5), (7, 5)], .right, 4⟩ ∧
    Snake.move ⟨[(19, 5), (18, 5), (17, 5)], .right, 4⟩ =
      some ⟨[(19, 5), (19, 5), (18, 5), (17, 5)], .right, 4⟩ ∧
    Snake.alive ⟨[(19, 5), (19, 5), (18, 5), (17, 5)], .right, 4⟩ = false := by
  obtain ⟨t₁, ht₁, htv₁, hin₁, -⟩ :=
    C1_move_spec ⟨[(8, 5), (7, 5), (6, 5)], .right, 4⟩ (8, 5) [(7, 5), (6, 5)] rfl
  obtain ⟨t₂, ht₂, htv₂, -, hout₂⟩ :=
    C1_move_spec ⟨[(19, 5), (18, 5), (17, 5)], .right, 4⟩ (19, 5) [(18, 5), (17, 5)] rfl
  subst htv₁
  subst htv₂
  refine ⟨?_, ?_, ?_⟩
  · have h := (hin₁ (by decide)).1
    simpa using h
  · have h := (hout₂ (by decide)).1
    simpa using h
  · have h := (hout₂ (by decide)).2.2.2
    simpa using h

/-- C4: for every (nonempty) snake body, `eat` pushes the pre-eat
target cell as the new head without popping: length grows by exactly
one, the new head is the target, and the previous cells survive
unchanged in order as the tail. -/
theorem C4_eat_spec (s : Snake) (h0 : Cell) (rest : List Cell)
    (hg : s.grids = h0 :: rest) :
    ∃ t : Cell,
      s.target = some t ∧
      s.eat = some { s with grids := t :: s.grids } ∧
      (t :: s.grids).length = s.grids.length + 1 ∧
      (t :: s.grids).head? = some t ∧
      (t :: s.grids).tail = s.grids := by
  refine ⟨(h0.1 + (MOTIONS s.direction).1, h0.2 + (MOTIONS s.direction).2),
    ?_, ?_, by simp, rfl, rfl⟩
  · simp [Snake.target, hg]
  · simp [Snake.eat, Snake.target, hg]

/-- C4 witness: `eat` at the doctest snake grows it to four cells with
the target `(9,5)` as new head. -/
theorem C4_eat_witness :
    Snake.eat ⟨[(8, 5), (7, 5), (6, 5)], .right, 4⟩ =
      some ⟨[(9, 5), (8, 5), (7, 5), (6, 5)], .right, 4⟩ := by
  obtain ⟨t, ht, he, -⟩ :=
    C4_eat_spec ⟨[(8, 5), (7, 5), (6, 5)], .right, 4⟩ (8, 5) [(7, 5), (6, 5)] rfl
  have htv : t = (9, 5) := by
    have h9 : (Snake.target ⟨[(8, 5), (7, 5), (6, 5)], .right, 4⟩) =
        some ((9 : Int), (5 : Int)) := by decide
    rw [h9] at ht
    exact (Option.some.inj ht).symm
  subst htv
  simpa using he

/-- Negating a heading negates its motion vector. -/
lemma MOTIONS_opposite (d : Direction) :
    MOTIONS (Direction.opposite d) = (-(MOTIONS d).1, -(MOTIONS d).2) := by
  cases d <;> rfl

/-- No heading is its own opposite. -/
lemma ne_opposite_self (d : Direction) : d ≠ Direction.opposite d := by
  cases d <;> simp [Direction.opposite]

/-- C3 counterexample: the starting body whose stored heading is `up`
(set by an accepted turn earlier in the same tick, before any move)
still has a neck-to-head vector pointing right, so it accepts `down` —
the exact opposite of the heading in effect immediately before the
call. -/
theorem C3_counterexample :
    Snake.set_direction ⟨[(8, 5), (7, 5), (6, 5)], .up, 4⟩ .down =
      some ⟨[(8, 5), (7, 5), (6, 5)], .down, 4⟩ ∧
    Direction.down = Direction.opposite .up := by
  constructor
  · rfl
  · rfl

/-- Full case analysis of `set_direction` on a body of length ≥ 2,
shared by several claim proofs. -/
lemma set_direction_cases (s : Snake) (g0 g1 : Cell) (rest : List Cell)
    (hg : s.grids = g0 :: g1 :: rest) (d : Direction) :
    ∃ s', s.set_direction d = some s' ∧
      s'.grids = s.grids ∧ s'.speed = s.speed ∧
      ((g0.1 - g1.1 + (MOTIONS d).1 = 0 ∧ g0.2 - g1.2 + (MOTIONS d).2 = 0) →
        s' = s) ∧
      (¬(g0.1 - g1.1 + (MOTIONS d).1 = 0 ∧ g0.2 - g1.2 + (MOTIONS d).2 = 0) →
        s'.direction = d) ∧
      ((g0.1 - g1.1, g0.2 - g1.2) = MOTIONS s.direction →
        s'.direction ≠ Direction.opposite s.direction) := by
  obtain ⟨g, dir, sp⟩ := s
  simp only at hg
  subst hg
  by_cases hzero : g0.1 - g1.1 + (MOTIONS d).1 = 0 ∧ g0.2 - g1.2 + (MOTIONS d).2 = 0
  · have hcond : ¬(g0.1 - g1.1 + (MOTIONS d).1 ≠ 0 ∨ g0.2 - g1.2 + (MOTIONS d).2 ≠ 0) := by
      push_neg
      exact hzero
    refine ⟨⟨g0 :: g1 :: rest, dir, sp⟩, ?_, rfl, rfl, fun _ => rfl,
      fun hc => absurd hzero hc, fun _ => ne_opposite_self dir⟩
    simp [Snake.set_direction, hcond]
  · have hcond : g0.1 - g1.1 + (MOTIONS d).1 ≠ 0 ∨ g0.2 - g1.2 + (MOTIONS d).2 ≠ 0 := by
      rcases not_and_or.1 hzero with h | h
      · exact Or.inl h
      · exact Or.inr h
    refine ⟨⟨g0 :: g1 :: rest, d, sp⟩, ?_, rfl, rfl,
      fun hc => absurd hc hzero, fun _ => rfl, ?_⟩
    · simp [Snake.set_direction, hcond]
    · intro hneck heq
      simp only at hneck heq
      apply hzero
      have h1 : g0.1 - g1.1 = (MOTIONS dir).1 := congrArg Prod.fst hneck
      have h2 : g0.2 - g1.2 = (MOTIONS dir).2 := congrArg Prod.snd hneck
      have h3 : MOTIONS d = (-(MOTIONS dir).1, -(MOTIONS dir).2) := by
        rw [heq, MOTIONS_opposite]
      constructor
      · rw [h1, h3]
        ring
      · rw [h2, h3]
        ring

/-- C3 (amended): for every snake body of length at least 2,
`set_direction d` never faults; it rejects `d` exactly when the motion
vector of `d` is the negation of the neck-to-head vector
`grids[0] - grids[1]` (leaving the whole snake unchanged), otherwise
it sets the heading to `d`; the body and speed are never touched.
When the neck-to-head vector agrees with the current heading (as it
does after any move), the resulting heading is never the exact
opposite of the current heading. -/
theorem C3_set_direction_spec (s : Snake) (g0 g1 : Cell) (rest : List Cell)
    (hg : s.grids = g0 :: g1 :: rest) (d : Direction) :
    ∃ s', s.set_direction d = some s' ∧
      s'.grids = s.grids ∧ s'.speed = s.speed ∧
      ((g0.1 - g1.1 + (MOTIONS d).1 = 0 ∧ g0.2 - g1.2 + (MOTIONS d).2 = 0) →
        s' = s) ∧
      (¬(g0.1 - g1.1 + (MOTIONS d).1 = 0 ∧ g0.2 - g1.2 + (MOTIONS d).2 = 0) →
        s'.direction = d) ∧
      ((g0.1 - g1.1, g0.2 - g1.2) = MOTIONS s.direction →
        s'.direction ≠ Direction.opposite s.direction) :=
  set_direction_cases s g0 g1 rest hg d

/-- C3 witness: the doctest scenario — a snake heading right whose
neck-to-head vector points right rejects `left`, and its heading stays
`right`. -/
theorem C3_witness :
    Snake.set_direction ⟨[(8, 5), (7, 5)], .right, 4⟩ .left =
      some ⟨[(8, 5), (7, 5)], .right, 4⟩ := by
  obtain ⟨s', hset, -, -, hrej, -, -⟩ :=
    C3_set_direction_spec ⟨[(8, 5), (7, 5)], .right, 4⟩ (8, 5) (7, 5) [] rfl .left
  rw [hset, hrej (by constructor <;> decide)]

/-- C8 counterexample: on a length-1 body, `set_direction` looks up
`grids[1]`, which is out of range — the call faults (IndexError,
modelled as `none`) and no direction change is ever accepted. -/
theorem C8_counterexample :
    Snake.set_direction ⟨[(8, 5)], .right, 4⟩ .up = none := by
  rfl

/-- C8 (amended): for a snake body of length 1, `set_direction d`
always faults with an out-of-range neck lookup — there is no guard —
so the direction change is never accepted, for every direction `d`. -/
theorem C8_length_one_faults (s : Snake) (c : Cell) (hg : s.grids = [c])
    (d : Direction) : s.set_direction d = none := by
  obtain ⟨g, dir, sp⟩ := s
  simp only at hg
  subst hg
  rfl

/-- C8 witness: the length-1 fault at a concrete snake and direction. -/
theorem C8_length_one_faults_witness :
    Snake.set_direction ⟨[(3, 3)], .down, 4⟩ .left = none :=
  C8_length_one_faults ⟨[(3, 3)], .down, 4⟩ (3, 3) rfl .left

/-- C9 counterexample: in the terminal state (snake dead after a wall
bounce, duplicate head, neck-to-head vector zero) a direction input is
still forwarded to `set_direction` and changes the heading from
`right` to `up` — the session state is not left unchanged. -/
theorem C9_counterexample :
    Snake.alive ⟨[(19, 5), (19, 5), (18, 5), (17, 5)], .right, 4⟩ = false ∧
    handle_direction_input
        ⟨⟨[(19, 5), (19, 5), (18, 5), (17, 5)], .right, 4⟩, (5, 5), 0⟩ .up =
      some ⟨⟨[(19, 5), (19, 5), (18, 5), (17, 5)], .up, 4⟩, (5, 5), 0⟩ ∧
    Direction.up ≠ Direction.right := by
  refine ⟨by decide, rfl, by decide⟩

/-- C9 (amended): while the session is in the terminal state, a
direction input raises no fault provided the body has at least two
cells (true throughout a session, which starts at length 3 and never
shrinks), and it leaves the body, food, score and speed unchanged; but
it is still forwarded to `set_direction`, so the stored heading may
change (by the same neck rule as when alive). -/
theorem C9_terminal_input_spec (g : Game) (d : Direction) (g0 g1 : Cell)
    (rest : List Cell) (hg : g.snake.grids = g0 :: g1 :: rest)
    (_hdead : g.snake.alive = false) :
    ∃ g', handle_direction_input g d = some g' ∧
      g'.snake.grids = g.snake.grids ∧
      g'.food = g.food ∧ g'.score = g.score ∧
      g'.snake.speed = g.snake.speed := by
  obtain ⟨s', hset, hgr, hsp, -⟩ :=
    set_direction_cases g.snake g0 g1 rest hg d
  exact ⟨{ g with snake := s' }, by rw [handle_direction_input, hset]; rfl,
    hgr, rfl, rfl, hsp⟩

/-- C9 witness: the amended statement at the dead snake of the wall
bounce. -/
theorem C9_terminal_input_witness :
    ∃ g', handle_direction_input
        ⟨⟨[(19, 5), (19, 5), (18, 5), (17, 5)], .right, 4⟩, (5, 5), 0⟩ .down =
        some g' ∧
      g'.snake.grids = [(19, 5), (19, 5), (18, 5), (17, 5)] ∧
      g'.food = (5, 5) ∧ g'.score = 0 ∧ g'.snake.speed = 4 :=
  C9_terminal_input_spec
    ⟨⟨[(19, 5), (19, 5), (18, 5), (17, 5)], .right, 4⟩, (5, 5), 0⟩ .down
    (19, 5) (19, 5) [(18, 5), (17, 5)] rfl (by decide)

/-- Membership in the grid enumeration is exactly the bounds test. -/
lemma mem_gridCells_iff (c : Cell) :
    c ∈ gridCells ↔ 0 ≤ c.1 ∧ c.1 < nx ∧ 0 ≤ c.2 ∧ c.2 < ny := by
  obtain ⟨a, b⟩ := c
  unfold gridCells nx ny
  simp only [List.mem_flatMap, List.mem_map, List.mem_range, Prod.mk.injEq]
  constructor
  · rintro ⟨x, hx, y, hy, rfl, rfl⟩
    refine ⟨?_, ?_, ?_, ?_⟩ <;> omega
  · rintro ⟨h1, h2, h3, h4⟩
    exact ⟨a.toNat, by omega, b.toNat, by omega, by omega, by omega⟩

/-- The grid enumeration lists every cell exactly once. -/
lemma gridCells_nodup : gridCells.Nodup := by
  unfold gridCells
  rw [List.nodup_flatMap]
  constructor
  · intro x _
    refine List.Nodup.map ?_ (List.nodup_range 20)
    intro y₁ y₂ h
    have := congrArg Prod.snd h
    simpa using this
  · have hnd : List.Pairwise (fun a b => a ≠ b) (List.range 20) :=
      List.nodup_range 20
    refine hnd.imp ?_
    intro x₁ x₂ hne c hc₁ hc₂
    rw [List.mem_map] at hc₁ hc₂
    obtain ⟨y₁, -, rfl⟩ := hc₁
    obtain ⟨y₂, -, hc⟩ := hc₂
    have := congrArg Prod.fst hc
    simp only at this
    exact hne (by omega)

/-- The candidate list of `generate_food` has no repeated cell, so
`choice` over it is uniform over its set of cells. -/
lemma foods_nodup (grids : List Cell) : (foods grids).Nodup :=
  List.Nodup.filter _ gridCells_nodup

/-- The spec words for the amended C5: a possible food cell is an
in-bounds cell that is neither occupied by the snake nor one of the
four corner cells of the grid. -/
def specFoodCell (grids : List Cell) (c : Cell) : Prop :=
  (0 ≤ c.1 ∧ c.1 < nx ∧ 0 ≤ c.2 ∧ c.2 < ny) ∧ c ∉ grids ∧
    ¬((c.1 = 0 ∨ c.1 = nx - 1) ∧ (c.2 = 0 ∨ c.2 = ny - 1))

/-- C5 counterexample: the corner `(0,0)` is in bounds and not
occupied by the starting snake body, yet it is not a possible result
of `generate_food` — the candidate list excludes it. -/
theorem C5_counterexample :
    inBounds (0, 0) = true ∧
    ((0, 0) : Cell) ∉ [((8, 5) : Cell), (7, 5), (6, 5)] ∧
    ((0, 0) : Cell) ∉ foods [(8, 5), (7, 5), (6, 5)] := by
  refine ⟨by decide, by decide, ?_⟩
  intro hmem
  rw [foods, List.mem_filter] at hmem
  simp [nx] at hmem

/-- C5 (amended): the candidate list of `generate_food` contains
exactly the in-bounds cells that are neither occupied by the snake nor
one of the four corner cells, each exactly once; `choice` picks
uniformly among those, so every such cell — and no other — is a
possible result. -/
theorem C5_food_candidates_spec (grids : List Cell) (c : Cell) :
    (c ∈ foods grids ↔ specFoodCell grids c) ∧ (foods grids).Nodup := by
  refine ⟨?_, foods_nodup grids⟩
  rw [foods, specFoodCell, List.mem_filter, mem_gridCells_iff]
  rw [Bool.and_eq_true, decide_eq_true_eq]
  constructor
  · rintro ⟨hb, hnotin, hcorner⟩
    refine ⟨hb, hnotin, ?_⟩
    rintro ⟨hx, hy⟩
    rw [Bool.or_eq_true, Bool.not_eq_true', Bool.not_eq_true'] at hcorner
    rcases hcorner with h | h <;>
      simp only [Bool.or_eq_false_iff, beq_eq_false_iff_ne] at h
    · rcases hx with hx | hx <;> exact absurd hx (by tauto)
    · rcases hy with hy | hy <;> exact absurd hy (by tauto)
  · rintro ⟨hb, hnotin, hcorner⟩
    refine ⟨hb, hnotin, ?_⟩
    rw [Bool.or_eq_true, Bool.not_eq_true', Bool.not_eq_true']
    by_cases hx : c.1 = 0 ∨ c.1 = nx - 1
    · right
      simp only [Bool.or_eq_false_iff, beq_eq_false_iff_ne]
      constructor <;> · intro h; exact hcorner ⟨hx, by tauto⟩
    · left
      simp only [Bool.or_eq_false_iff, beq_eq_false_iff_ne]
      push_neg at hx
      exact ⟨hx.1, hx.2⟩

/-- C6: every possible result of `generate_food` — every member of its
candidate list — is a cell not occupied by the snake body, so food is
never placed on the snake, at reset and after eating alike. -/
theorem C6_food_not_on_snake (grids : List Cell) (c : Cell)
    (h : c ∈ foods grids) : c ∉ grids := by
  rw [foods, List.mem_filter, Bool.and_eq_true, decide_eq_true_eq] at h
  exact h.2.1

/-- C6 witness: `(5,5)` is a candidate against a one-cell snake at
`(8,5)` and indeed unoccupied. -/
theorem C6_food_not_on_snake_witness :
    ((5, 5) : Cell) ∉ [((8, 5) : Cell)] :=
  C6_food_not_on_snake [(8, 5)] (5, 5) (by decide)

/-- C10: the four corner cells of the 20×20 grid are excluded from the
candidate list of `generate_food` for every snake body, so food is
never placed on a corner even when the corner is unoccupied. -/
theorem C10_corners_excluded (grids : List Cell) (c : Cell)
    (h : c = (0, 0) ∨ c = (nx - 1, 0) ∨ c = (0, ny - 1) ∨ c = (nx - 1, ny - 1)) :
    c ∉ foods grids := by
  intro hmem
  rw [foods, List.mem_filter] at hmem
  rcases h with rfl | rfl | rfl | rfl <;> simp [nx, ny] at hmem

/-- C10 witness: the corner `(19,19)` is not a candidate against a
one-cell snake at `(8,5)`. -/
theorem C10_corners_excluded_witness :
    ((19, 19) : Cell) ∉ foods [(8, 5)] :=
  C10_corners_excluded [(8, 5)] (19, 19) (by right; right; right; decide)

/-- Reading a sorted list at increasing indices is monotone. -/
lemma sorted_getD_mono (a : List Nat) (ha : a.Pairwise (· ≤ ·))
    {i j : Nat} (hij : i ≤ j) (hj : j < a.length) :
    a.getD i 0 ≤ a.getD j 0 := by
  rcases Nat.eq_or_lt_of_le hij with rfl | hlt
  · exact le_refl _
  · rw [List.getD_eq_getElem a 0 (lt_of_le_of_lt hij hj), List.getD_eq_getElem a 0 hj]
    exact List.pairwise_iff_getElem.1 ha i j (lt_of_le_of_lt hij hj) hj hlt

/-- A splitting index pins down the count: if everything before `lo`
is at most `x` and everything from `lo` on exceeds `x`, then exactly
`lo` elements are at most `x`. -/
lemma countP_eq_of_split (a : List Nat) (x lo : Nat) (hlo : lo ≤ a.length)
    (h1 : ∀ i, i < lo → a.getD i 0 ≤ x)
    (h2 : ∀ i, lo ≤ i → i < a.length → x < a.getD i 0) :
    a.countP (fun t => t ≤ x) = lo := by
  have hsplit : a.take lo ++ a.drop lo = a := List.take_append_drop lo a
  have htake : (a.take lo).countP (fun t => t ≤ x) = lo := by
    have hlen : (a.take lo).length = lo := by
      rw [List.length_take]
      omega
    have hall : (a.take lo).countP (fun t => t ≤ x) = (a.take lo).length := by
      rw [List.countP_eq_length]
      intro b hb
      rw [List.mem_iff_getElem] at hb
      obtain ⟨n, hn, rfl⟩ := hb
      rw [List.getElem_take]
      have hn2 : n < lo := by
        rw [hlen] at hn
        exact hn
      have hn3 : n < a.length := by omega
      have := h1 n hn2
      rw [List.getD_eq_getElem a 0 hn3] at this
      simpa using this
    rw [hall, hlen]
  have hdrop : (a.drop lo).countP (fun t => t ≤ x) = 0 := by
    rw [List.countP_eq_zero]
    intro b hb
    rw [List.mem_iff_getElem] at hb
    obtain ⟨n, hn, rfl⟩ := hb
    rw [List.getElem_drop]
    have hn2 : lo + n < a.length := by
      rw [List.length_drop] at hn
      omega
    have := h2 (lo + n) (by omega) hn2
    rw [List.getD_eq_getElem a 0 hn2] at this
    simp only [decide_eq_true_eq]
    omega
  calc a.countP (fun t => t ≤ x)
      = (a.take lo ++ a.drop lo).countP (fun t => t ≤ x) := by rw [hsplit]
    _ = (a.take lo).countP (fun t => t ≤ x) +
        (a.drop lo).countP (fun t => t ≤ x) := List.countP_append _ _ _
    _ = lo := by
      rw [htake, hdrop]
      omega

/-- The fueled `bisect_right` loop computes, on a sorted list, the
number of elements at most `x`, whenever the fuel covers the remaining
interval and the invariant of the loop holds at entry. -/
lemma bisectLoop_eq_countP (a : List Nat) (x : Nat) (ha : a.Pairwise (· ≤ ·))
    (fuel : Nat) :
    ∀ lo hi, hi - lo ≤ fuel → lo ≤ hi → hi ≤ a.length →
      (∀ i, i < lo → a.getD i 0 ≤ x) →
      (∀ i, hi ≤ i → i < a.length → x < a.getD i 0) →
      bisectLoop a x fuel lo hi = a.countP (fun t => t ≤ x) := by
  induction fuel with
  | zero =>
    intro lo hi hfuel hlohi hhi h1 h2
    have heq : lo = hi := by omega
    subst heq
    simp only [bisectLoop]
    exact (countP_eq_of_split a x lo hhi h1 h2).symm
  | succ n ih =>
    intro lo hi hfuel hlohi hhi h1 h2
    simp only [bisectLoop]
    by_cases hlt : lo < hi
    · rw [if_pos hlt]
      have hmid1 : lo ≤ (lo + hi) / 2 := by omega
      have hmid2 : (lo + hi) / 2 < hi := by omega
      by_cases hx : x < a.getD ((lo + hi) / 2) 0
      · rw [if_pos hx]
        refine ih lo ((lo + hi) / 2) (by omega) (by omega) (by omega) h1 ?_
        intro i hi1 hi2
        exact lt_of_lt_of_le hx (sorted_getD_mono a ha hi1 hi2)
      · rw [if_neg hx]
        push_neg at hx
        refine ih ((lo + hi) / 2 + 1) hi (by omega) (by omega) hhi ?_ h2
        intro i hi1
        rcases Nat.lt_or_ge i lo with h | h
        · exact h1 i h
        · have := sorted_getD_mono a ha (show i ≤ (lo + hi) / 2 by omega)
            (show (lo + hi) / 2 < a.length by omega)
          omega
    · rw [if_neg hlt]
      have heq : lo = hi := by omega
      subst heq
      exact (countP_eq_of_split a x lo hhi h1 h2).symm

/-- The score thresholds are sorted ascending. -/
lemma SCORES_sorted : SCORES.Pairwise (· ≤ ·) := by
  unfold SCORES
  decide

/-- On the concrete threshold table, `bisect.bisect` returns the
number of thresholds at most the score. -/
lemma bisect_SCORES (x : Nat) : bisect SCORES x = countThresholdsLe x := by
  unfold bisect countThresholdsLe
  rw [← List.countP_eq_length_filter]
  refine bisectLoop_eq_countP SCORES x SCORES_sorted SCORES.length 0 SCORES.length
    (by omega) (by omega) (le_refl _) ?_ ?_
  · intro i hi
    exact absurd hi (Nat.not_lt_zero i)
  · intro i hi1 hi2
    exact absurd (lt_of_le_of_lt hi1 hi2) (lt_irrefl _)

/-- C7: after every score update the speed level equals the number of
thresholds of `SCORES` at most the current score, plus the base speed;
in particular a score of 150 with base speed 4 yields speed 5, and the
speed is a non-decreasing function of the score. -/
theorem C7_speed_spec :
    (∀ score : Nat, newSpeed score = countThresholdsLe score + SNAKE_PROPS_speed) ∧
    newSpeed 150 = 5 ∧
    (∀ s t : Nat, s ≤ t → newSpeed s ≤ newSpeed t) := by
  refine ⟨fun score => by rw [newSpeed, bisect_SCORES], ?_, ?_⟩
  · rw [newSpeed, bisect_SCORES]
    rfl
  · intro s t hst
    rw [newSpeed, newSpeed, bisect_SCORES, bisect_SCORES]
    have hmono : countThresholdsLe s ≤ countThresholdsLe t := by
      unfold countThresholdsLe
      rw [← List.countP_eq_length_filter, ← List.countP_eq_length_filter]
      refine List.countP_mono_left ?_
      intro a _
      simp only [decide_eq_true_eq]
      omega
    omega

/-- C7 witness: monotonicity applied at scores 100 and 200, which
straddle the first threshold. -/
theorem C7_speed_witness : newSpeed 100 ≤ newSpeed 200 :=
  C7_speed_spec.2.2 100 200 (by omega)

end SnakeGame
